import Mathlib

/-!
Shallow embedding of `src/examples/chess.rs` (chess example of the rurel
reinforcement-learning crate): the state/action tensor codecs, the reward
function, the termination strategy and the human turn of the interactive
play loop, together with theorems settling the specification claims.

Machine integers (`u32`, `u64`) are modelled as `Nat`; the `f32` array
slots of the codecs are modelled by the exact integer values the code
writes into them (every slot the code produces is a nonnegative integer
cast to `f32`, and the claims under consideration restrict attention to
the range where that cast is exact).
-/

namespace RurelChess

/-- Chess colors (`shakmaty::Color`). -/
inductive ChessColor : Type
  | white
  | black
deriving DecidableEq, Repr

/-- Piece roles (`shakmaty::Role`). -/
inductive ChessRole : Type
  | pawn
  | knight
  | bishop
  | rook
  | queen
  | king
deriving DecidableEq, Repr

/-- `role as u32` from the source: `shakmaty::Role` is declared with
explicit discriminants starting at 1 (`Pawn = 1`, ..., `King = 6`), so the
cast of a role to `u32` yields its 1-based discriminant. -/
def ChessRole.toIndex : ChessRole → Nat
  | .pawn => 1
  | .knight => 2
  | .bishop => 3
  | .rook => 4
  | .queen => 5
  | .king => 6

/-- A board square, `shakmaty::Square`: explicit discriminants `A1 = 0`
through `H8 = 63`, so `square as u32` is the value of the underlying
`Fin 64` and `Square::ALL[n]` is the square with index `n`. -/
def ChessSquare : Type := Fin 64
deriving DecidableEq, Repr

/-- The index of a square, `square as u32` in the source. -/
def ChessSquare.toIndex (s : ChessSquare) : Nat := Fin.val s

/-- `shakmaty::Move`, the four move kinds handled by the action codec. -/
inductive ChessMove : Type
  | normal (role : ChessRole) (src : ChessSquare) (capture : Option ChessRole)
      (dst : ChessSquare) (promotion : Option ChessRole)
  | enPassant (src dst : ChessSquare)
  | castle (king rook : ChessSquare)
  | put (role : ChessRole) (dst : ChessSquare)
deriving DecidableEq, Repr

/-- `split_u64` from the source: split a `u64` into two `u32`s,
`(n & 0xFFFF_FFFF, n >> 32)`. -/
def split_u64 (n : Nat) : Nat × Nat :=
  (n &&& 0xFFFFFFFF, n >>> 32)

/-- Modelled from the spec: the `join(low, high) -> u64` half of the
Bitboard Splitter. It does not appear in `src/` (only `split_u64` does);
the spec defines it as the exact inverse of `split`, i.e. the `u64`
whose low 32 bits are `low` and whose high 32 bits are `high`. -/
def join_u32 (low high : Nat) : Nat :=
  low + high * 2 ^ 32

/-- The errors the action decoder can produce. The source signals all of
them by panicking; we keep the distinct panic sites apart. -/
inductive ActionError : Type
  | invalidAction
  | rolePanic
  | squarePanic
  | unwrapPanic
deriving DecidableEq, Repr

/-- `u32_to_role` from the source: the 0-based decode table
`0 => Pawn, ..., 5 => King`; any other value panics (`Invalid role`). -/
def u32_to_role (n : Nat) : Except ActionError ChessRole :=
  match n with
  | 0 => .ok .pawn
  | 1 => .ok .knight
  | 2 => .ok .bishop
  | 3 => .ok .rook
  | 4 => .ok .queen
  | 5 => .ok .king
  | _ => .error .rolePanic

/-- `u32_to_square` from the source: `Square::ALL[n as usize]`; an index
of 64 or more is an out-of-bounds panic. -/
def u32_to_square (n : Nat) : Except ActionError ChessSquare :=
  if h : n < 64 then .ok ⟨n, h⟩ else .error .squarePanic

/-- `to.try_into().unwrap()` on the Normal path of the decoder:
`Square::try_from(u32)` succeeds exactly for values below 64, and the
`unwrap` panics otherwise. -/
def square_try_into (n : Nat) : Except ActionError ChessSquare :=
  if h : n < 64 then .ok ⟨n, h⟩ else .error .unwrapPanic

/-- Wrapping `u32` subtraction (release-mode semantics of `a - b`). -/
def u32_wrapping_sub (a b : Nat) : Nat :=
  (a + (2 ^ 32 - b)) % 2 ^ 32

/-- The model of the 6-element `[f32; 6]` action array. Field `a0` is
element 0 (the kind discriminant), ..., `a5` is element 5. -/
structure ActionVec : Type where
  a0 : Nat
  a1 : Nat
  a2 : Nat
  a3 : Nat
  a4 : Nat
  a5 : Nat
deriving DecidableEq, Repr

/-- Encoding of an optional capture or promotion role in the encoder:
`Some(role) => role as u32 as f32 + 1.0, None => 0.0`. -/
def encodeOptRole : Option ChessRole → Nat
  | none => 0
  | some r => ChessRole.toIndex r + 1

/-- `From<ChessAction> for [f32; 6]` from the source: the action encoder. -/
def encodeAction : ChessMove → ActionVec
  | .normal role src capture dst promotion =>
      ⟨0, ChessRole.toIndex role, ChessSquare.toIndex src,
        encodeOptRole capture, ChessSquare.toIndex dst, encodeOptRole promotion⟩
  | .enPassant src dst =>
      ⟨1, 0, ChessSquare.toIndex src, 0, ChessSquare.toIndex dst, 0⟩
  | .castle king rook =>
      ⟨2, 0, ChessSquare.toIndex king, 0, ChessSquare.toIndex rook, 0⟩
  | .put role dst =>
      ⟨3, ChessRole.toIndex role, 0, 0, ChessSquare.toIndex dst, 0⟩

/-- The capture/promotion slot treatment on the Normal decode path:
`let c = if v == 0 { None } else { Some(v - 1) };` followed by
`c.map(|x| u32_to_role(x - 1))`, the second subtraction being a `u32`
subtraction that wraps at zero (and in every mode ends in a panic,
because `u32_to_role` rejects the wrapped value). -/
def decodeOptRole (v : Nat) : Except ActionError (Option ChessRole) :=
  if v = 0 then .ok none
  else Except.map some (u32_to_role (u32_wrapping_sub (v - 1) 1))

/-- `From<[f32; 6]> for ChessAction` from the source: the action decoder.
The source panics on bad data; each panic site is modelled as the
corresponding `ActionError`. Fields of the `Move` struct literals are
evaluated in their written order, which the `do` blocks mirror. -/
def decodeAction (v : ActionVec) : Except ActionError ChessMove :=
  match v.a0 with
  | 0 => do
      let role ← u32_to_role v.a1
      let src ← u32_to_square v.a2
      let capture ← decodeOptRole v.a3
      let dst ← square_try_into v.a4
      let promotion ← decodeOptRole v.a5
      return .normal role src capture dst promotion
  | 1 => do
      let src ← u32_to_square v.a2
      let dst ← u32_to_square v.a4
      return .enPassant src dst
  | 2 => do
      let king ← u32_to_square v.a2
      let rook ← u32_to_square v.a4
      return .castle king rook
  | 3 => do
      let role ← u32_to_role v.a1
      let dst ← u32_to_square v.a4
      return .put role dst
  | _ => .error .invalidAction

/-- The part of a `shakmaty::Chess` position that the state encoder reads:
the eight board occupancy bitmasks (`u64`), the side to move, the halfmove
clock, the (legal-mode) en passant target square, and the castling-rights
bitmask. -/
structure ChessPos : Type where
  pawns : Nat
  knights : Nat
  bishops : Nat
  rooks : Nat
  queens : Nat
  kings : Nat
  white : Nat
  black : Nat
  turn : ChessColor
  halfmoves : Nat
  epSquare : Option ChessSquare
  castlingRights : Nat
deriving DecidableEq, Repr

/-- `From<ChessState> for [f32; 21]` from the source: the 21-slot state
encoder. Slots 0-15 are the split halves of the eight bitmasks written by
the `generate_from_chess_state!` macro in index order (low half at `2*i`,
high half at `2*i + 1`), slot 16 the turn flag, slot 17 the halfmove
clock, slot 18 the en passant square as `index + 1` (0 when absent), and
slots 19-20 the split castling-rights mask. -/
def encodeState (p : ChessPos) : List Nat :=
  [(split_u64 p.pawns).1, (split_u64 p.pawns).2,
   (split_u64 p.knights).1, (split_u64 p.knights).2,
   (split_u64 p.bishops).1, (split_u64 p.bishops).2,
   (split_u64 p.rooks).1, (split_u64 p.rooks).2,
   (split_u64 p.queens).1, (split_u64 p.queens).2,
   (split_u64 p.kings).1, (split_u64 p.kings).2,
   (split_u64 p.white).1, (split_u64 p.white).2,
   (split_u64 p.black).1, (split_u64 p.black).2,
   (if p.turn = .white then 0 else 1),
   p.halfmoves,
   (match p.epSquare with
    | some sq => ChessSquare.toIndex sq + 1
    | none => 0),
   (split_u64 p.castlingRights).1, (split_u64 p.castlingRights).2]

/-- Whether a `u64` mask has exactly one bit set. -/
def oneBit (n : Nat) : Bool :=
  decide (n ≠ 0) && (n &&& (n - 1) == 0)

/-- Modelled from the spec: the structural checks of the state decoder
(which does not appear in `src/`): the six role masks pairwise disjoint,
the color masks disjoint and partitioning the union of the role masks,
and the basic rules-engine legality check, modelled as the spec's example
condition of one king of each color. -/
def structuralOk (p : ChessPos) : Bool :=
  (p.pawns &&& p.knights == 0) && (p.pawns &&& p.bishops == 0) &&
  (p.pawns &&& p.rooks == 0) && (p.pawns &&& p.queens == 0) &&
  (p.pawns &&& p.kings == 0) && (p.knights &&& p.bishops == 0) &&
  (p.knights &&& p.rooks == 0) && (p.knights &&& p.queens == 0) &&
  (p.knights &&& p.kings == 0) && (p.bishops &&& p.rooks == 0) &&
  (p.bishops &&& p.queens == 0) && (p.bishops &&& p.kings == 0) &&
  (p.rooks &&& p.queens == 0) && (p.rooks &&& p.kings == 0) &&
  (p.queens &&& p.kings == 0) &&
  (p.white &&& p.black == 0) &&
  ((p.white ||| p.black) ==
    (p.pawns ||| p.knights ||| p.bishops ||| p.rooks ||| p.queens ||| p.kings)) &&
  oneBit (p.kings &&& p.white) && oneBit (p.kings &&& p.black)

/-- The state decoder's error. -/
inductive StateError : Type
  | invalidPosition
deriving DecidableEq, Repr

/-- Modelled from the spec: the state decoder, which does not appear in
`src/`. It reconstructs the masks via `join`, rebuilds the `Position`
(turn flag 0 means white, en passant slot 0 means none and `k + 1` means
square `k`), and fails with `InvalidPositionError` when the slot count is
wrong, when the en passant slot exceeds 64, or when the structural checks
of `structuralOk` reject the layout. -/
def decodeState (v : List Nat) : Except StateError ChessPos :=
  match v with
  | [p0, p1, n0, n1, b0, b1, r0, r1, q0, q1, k0, k1,
     w0, w1, bl0, bl1, t, hm, ep, c0, c1] =>
    if hep : ep ≤ 64 then
      let pos : ChessPos :=
        { pawns := join_u32 p0 p1, knights := join_u32 n0 n1,
          bishops := join_u32 b0 b1, rooks := join_u32 r0 r1,
          queens := join_u32 q0 q1, kings := join_u32 k0 k1,
          white := join_u32 w0 w1, black := join_u32 bl0 bl1,
          turn := if t = 0 then .white else .black,
          halfmoves := hm,
          epSquare := if hz : ep = 0 then none else some ⟨ep - 1, by omega⟩,
          castlingRights := join_u32 c0 c1 }
      if structuralOk pos then .ok pos else .error .invalidPosition
    else .error .invalidPosition
  | _ => .error .invalidPosition

/-- The half of a split mask is exactly representable in `f32` when it is
below `2 ^ 24`; `belowThreshold` states this for both halves of all nine
`u64` masks of a position. -/
def belowThreshold (p : ChessPos) : Prop :=
  (split_u64 p.pawns).1 < 2 ^ 24 ∧ (split_u64 p.pawns).2 < 2 ^ 24 ∧
  (split_u64 p.knights).1 < 2 ^ 24 ∧ (split_u64 p.knights).2 < 2 ^ 24 ∧
  (split_u64 p.bishops).1 < 2 ^ 24 ∧ (split_u64 p.bishops).2 < 2 ^ 24 ∧
  (split_u64 p.rooks).1 < 2 ^ 24 ∧ (split_u64 p.rooks).2 < 2 ^ 24 ∧
  (split_u64 p.queens).1 < 2 ^ 24 ∧ (split_u64 p.queens).2 < 2 ^ 24 ∧
  (split_u64 p.kings).1 < 2 ^ 24 ∧ (split_u64 p.kings).2 < 2 ^ 24 ∧
  (split_u64 p.white).1 < 2 ^ 24 ∧ (split_u64 p.white).2 < 2 ^ 24 ∧
  (split_u64 p.black).1 < 2 ^ 24 ∧ (split_u64 p.black).2 < 2 ^ 24 ∧
  (split_u64 p.castlingRights).1 < 2 ^ 24 ∧
  (split_u64 p.castlingRights).2 < 2 ^ 24

instance (p : ChessPos) : Decidable (belowThreshold p) := by
  unfold belowThreshold; infer_instance

/-- A small reachable-layout position used as a concrete codec input:
the white king on e1 (square 4), the black king on e7 (square 52, kept
below rank 8 so that every split half stays under `2 ^ 24`), white to
move, all counters and rights cleared. -/
def kingsOnlyPos : ChessPos :=
  { pawns := 0, knights := 0, bishops := 0, rooks := 0, queens := 0,
    kings := 2 ^ 4 + 2 ^ 52, white := 2 ^ 4, black := 2 ^ 52,
    turn := .white, halfmoves := 0, epSquare := none, castlingRights := 0 }

/-- The outcome reported by the rules engine (`shakmaty::Outcome`). -/
inductive ChessOutcome : Type
  | decisive (winner : ChessColor)
  | draw
deriving DecidableEq, Repr

/-- The view of a position used by `reward` and `should_stop`: what
`self.0.outcome()`, `self.0.turn()` and `self.0.halfmoves()` return.
The outcome is the rules engine's verdict on the position, carried here
as data since the rules engine is an external collaborator. -/
structure EngineView : Type where
  outcome : Option ChessOutcome
  turn : ChessColor
  halfmoves : Nat
deriving DecidableEq, Repr

/-- `ChessState::reward` from the source (the values are small integers,
exact in `f64`): decisive outcome gives -20 when the winner is the side
to move, 40 otherwise; a draw or an undecided position gives -10. -/
def reward (s : EngineView) : Int :=
  match s.outcome with
  | some (.decisive winner) => if winner = s.turn then -20 else 40
  | some .draw => -10
  | none => -10

/-- `ChessTermination::should_stop` from the source:
`state.0.outcome().is_some() || state.0.halfmoves() >= 100`. -/
def should_stop (s : EngineView) : Bool :=
  s.outcome.isSome || decide (100 ≤ s.halfmoves)

/-- Rust's `str::trim` over a list of characters: drop whitespace from
both ends. -/
def trimChars (l : List Char) : List Char :=
  ((l.dropWhile Char.isWhitespace).reverse.dropWhile Char.isWhitespace).reverse

/-- The human-turn move lookup of the interactive loop:
`legal_moves.iter().find(|m| m.to_string() == input.trim())`, with move
rendering (`m.to_string()`) supplied by the external rules engine as a
function into character lists. -/
def findMove {M : Type} (legal : List M) (render : M → List Char)
    (input : List Char) : Option M :=
  legal.find? (fun m => render m == trimChars input)

/-- One human turn of the interactive play loop (lines 300-318 and 332 of
the source), given the rules engine's `play` function: on a match the
move is applied to produce the next position and the played move is
printed; on no match the loop prints `Invalid move; valid moves are:`
followed by the rendering of every legal move, leaves the position
untouched, and `continue`s to re-read input. The returned pair is the
position the next loop iteration starts from and the lines printed. -/
def humanTurn {P M : Type} (play : P → M → P) (render : M → List Char)
    (legal : List M) (pos : P) (input : List Char) : P × List (List Char) :=
  match findMove legal render input with
  | some m => (play pos m, [render m])
  | none =>
      (pos, String.toList "Invalid move; valid moves are:" :: legal.map render)

end RurelChess

deriving instance DecidableEq for Except

namespace RurelChess

/-! ## Helper lemmas -/

/-- The low half produced by `split_u64` is the residue modulo `2 ^ 32`. -/
theorem split_u64_fst (n : Nat) : (split_u64 n).1 = n % 2 ^ 32 := by
  show n &&& 0xFFFFFFFF = n % 2 ^ 32
  have h : (0xFFFFFFFF : Nat) = 2 ^ 32 - 1 := by norm_num
  rw [h, Nat.and_pow_two_sub_one_eq_mod]

/-- The high half produced by `split_u64` is the quotient by `2 ^ 32`. -/
theorem split_u64_snd (n : Nat) : (split_u64 n).2 = n / 2 ^ 32 := by
  show n >>> 32 = n / 2 ^ 32
  rw [Nat.shiftRight_eq_div_pow]

/-- `join_u32` undoes `split_u64` on any value fitting in a `u64`. -/
theorem join_split_of_lt (n : Nat) (h : n < 2 ^ 64) :
    join_u32 (split_u64 n).1 (split_u64 n).2 = n := by
  rw [split_u64_fst, split_u64_snd]
  unfold join_u32
  omega

/-- A mask whose high half is below `2 ^ 24` fits in a `u64`. -/
theorem mask_lt_of_high (n : Nat) (h : (split_u64 n).2 < 2 ^ 24) :
    n < 2 ^ 64 := by
  rw [split_u64_snd] at h
  omega

/-- `u32_to_role` panics on every value of 6 or more. -/
theorem u32_to_role_err (n : Nat) (h : 6 ≤ n) :
    u32_to_role n = .error .rolePanic := by
  obtain ⟨m, rfl⟩ : ∃ m, n = m + 6 := ⟨n - 6, by omega⟩
  rfl

/-- `u32_to_role` succeeds on every value below 6. -/
theorem u32_to_role_ok (n : Nat) (h : n < 6) :
    ∃ r, u32_to_role n = .ok r := by
  interval_cases n <;> exact ⟨_, rfl⟩

/-- `u32_to_square` panics on every index of 64 or more. -/
theorem u32_to_square_err (n : Nat) (h : 64 ≤ n) :
    u32_to_square n = .error .squarePanic := by
  unfold u32_to_square
  rw [dif_neg (by omega)]

/-- `u32_to_square` succeeds on every index below 64. -/
theorem u32_to_square_ok (n : Nat) (h : n < 64) :
    u32_to_square n = .ok ⟨n, h⟩ := by
  unfold u32_to_square
  rw [dif_pos h]

/-- Reduction of `Except` bind on a success. -/
theorem except_bind_ok {ε α β : Type} (a : α) (f : α → Except ε β) :
    (Except.ok a >>= f) = f a := rfl

/-- Reduction of `Except` bind on an error. -/
theorem except_bind_err {ε α β : Type} (e : ε) (f : α → Except ε β) :
    ((Except.error e : Except ε α) >>= f) = .error e := rfl

/-- Reduction of `Except` map on a success. -/
theorem except_map_ok {ε α β : Type} (f : α → β) (a : α) :
    (f <$> (Except.ok a : Except ε α)) = .ok (f a) := rfl

/-- Reduction of `Except` map on an error. -/
theorem except_map_err {ε α β : Type} (f : α → β) (e : ε) :
    (f <$> (Except.error e : Except ε α)) = .error e := rfl

/-! ## Claim theorems -/

/-- Claim C1 (code bug): the claimed round trip `decode (encode m) = m`
fails on the code. The encoder writes the 1-based `shakmaty` role
discriminant into the role slot while the decoder reads it through the
0-based `u32_to_role` table, so a pawn move from e2 (index 12) to e4
(index 28) decodes to the corresponding knight move, and a king move
panics; the capture and promotion slots, by contrast, do round-trip,
because the decoder's two `- 1` steps exactly invert the encoder's
`discriminant + 1` — contrary to the claim's "subtract 1 once". -/
theorem claim1_roundtrip_fails :
    decodeAction (encodeAction
        (.normal .pawn ⟨12, by norm_num⟩ none ⟨28, by norm_num⟩ none))
      = .ok (.normal .knight ⟨12, by norm_num⟩ none ⟨28, by norm_num⟩ none) ∧
    ChessMove.normal .knight ⟨12, by norm_num⟩ none ⟨28, by norm_num⟩ none
      ≠ .normal .pawn ⟨12, by norm_num⟩ none ⟨28, by norm_num⟩ none ∧
    decodeAction (encodeAction
        (.normal .king ⟨4, by norm_num⟩ none ⟨12, by norm_num⟩ none))
      = .error .rolePanic ∧
    decodeAction (encodeAction (.normal .knight ⟨12, by norm_num⟩
        (some .bishop) ⟨28, by norm_num⟩ (some .queen)))
      = .ok (.normal .bishop ⟨12, by norm_num⟩
        (some .bishop) ⟨28, by norm_num⟩ (some .queen)) := by
  refine ⟨rfl, by decide, rfl, rfl⟩

/-- Claim C3, counterexample: `should_stop` on a position with no
outcome and a halfmove clock of 101 returns `true`, although the clock
does not equal 100 and no outcome is decided, so the claimed "under
these conditions and no others" fails. -/
theorem claim3_counterexample :
    should_stop ⟨none, .white, 101⟩ = true ∧
    ¬((101 : Nat) = 100 ∨ (none : Option ChessOutcome).isSome = true) := by
  decide

/-- Claim C3, amended: the termination policy returns true exactly when
the halfmove clock is at least 100 (independent of outcome state) or the
rules engine reports a decided outcome (regardless of clock value), and
an episode ends under these conditions and no others. -/
theorem claim3_amended (s : EngineView) :
    should_stop s = true ↔ (s.outcome.isSome = true ∨ 100 ≤ s.halfmoves) := by
  simp [should_stop]

/-- Claim C5: the action encoder produces the 6-slot layout
`[kind, role_or_0, from_square, capture_role_plus1_or_0, to_square,
promotion_role_plus1_or_0]` with kind 0/1/2/3 for
Normal/EnPassant/Castle/Put, EnPassant populating only from/to, Castle
using king origin and rook origin, Put using role and destination; in
particular the Normal pawn move e2 (index 12) to e4 (index 28) with no
capture and no promotion encodes to
`[0, pawn_index, 12, 0, 28, 0]` where `pawn_index = ChessRole.toIndex
.pawn` is the encoder's pawn index (`Role::Pawn as u32`). -/
theorem claim5_action_layout :
    (∀ role src capture dst promotion,
      encodeAction (.normal role src capture dst promotion)
        = ⟨0, ChessRole.toIndex role, ChessSquare.toIndex src,
            (match capture with
             | none => 0
             | some r => ChessRole.toIndex r + 1),
            ChessSquare.toIndex dst,
            (match promotion with
             | none => 0
             | some r => ChessRole.toIndex r + 1)⟩) ∧
    (∀ src dst, encodeAction (.enPassant src dst)
        = ⟨1, 0, ChessSquare.toIndex src, 0, ChessSquare.toIndex dst, 0⟩) ∧
    (∀ king rook, encodeAction (.castle king rook)
        = ⟨2, 0, ChessSquare.toIndex king, 0, ChessSquare.toIndex rook, 0⟩) ∧
    (∀ role dst, encodeAction (.put role dst)
        = ⟨3, ChessRole.toIndex role, 0, 0, ChessSquare.toIndex dst, 0⟩) ∧
    encodeAction (.normal .pawn ⟨12, by norm_num⟩ none ⟨28, by norm_num⟩ none)
      = ⟨0, ChessRole.toIndex .pawn, 12, 0, 28, 0⟩ := by
  refine ⟨fun role src capture dst promotion => ?_,
    fun src dst => rfl, fun king rook => rfl, fun role dst => rfl, rfl⟩
  cases capture <;> cases promotion <;> rfl

/-- Claim C6: the action decoder rejects every vector whose discriminant
(element 0) lies outside `{0, 1, 2, 3}` with the invalid-action error
(the `Invalid action` panic of the source). -/
theorem claim6_invalid_discriminant (v : ActionVec)
    (h : ¬(v.a0 = 0 ∨ v.a0 = 1 ∨ v.a0 = 2 ∨ v.a0 = 3)) :
    decodeAction v = .error .invalidAction := by
  obtain ⟨a0, a1, a2, a3, a4, a5⟩ := v
  simp only at h
  obtain ⟨m, rfl⟩ : ∃ m, a0 = m + 4 := ⟨a0 - 4, by omega⟩
  rfl

/-- Witness for claim C6 at discriminant 4. -/
theorem claim6_witness :
    decodeAction ⟨4, 0, 0, 0, 0, 0⟩ = .error .invalidAction :=
  claim6_invalid_discriminant ⟨4, 0, 0, 0, 0, 0⟩ (by decide)

/-- Claim C7: the reward, evaluated on a position from the perspective of
the side to move of that position (the side to move after the move was
applied), follows the Shaped scheme: a decisive outcome yields -20 when
the winner is the side to move and 40 otherwise; a draw or an undecided
position yields -10. -/
theorem claim7_reward_shaped (w c : ChessColor) (hm : Nat) :
    reward ⟨some (.decisive w), c, hm⟩ = (if w = c then -20 else 40) ∧
    reward ⟨some .draw, c, hm⟩ = -10 ∧
    reward ⟨none, c, hm⟩ = -10 :=
  ⟨rfl, rfl, rfl⟩

/-- Claim C8: `split_u64` returns `(mask & 0xFFFFFFFF, mask >> 32)` (by
definition) and `join` is its exact inverse on every `u64`: joining the
halves of any mask below `2 ^ 64` is the identity, and splitting
`join low high` recovers `(low, high)` for `u32` inputs. For the starting
pawn occupancy mask `0x00FF00000000FF00` the halves are 65280 and
16711680 and joining them restores the mask. -/
theorem claim8_split_join :
    (∀ n, n < 2 ^ 64 → join_u32 (split_u64 n).1 (split_u64 n).2 = n) ∧
    (∀ low high, low < 2 ^ 32 → high < 2 ^ 32 →
      split_u64 (join_u32 low high) = (low, high)) ∧
    split_u64 0x00FF00000000FF00 = (65280, 16711680) ∧
    join_u32 65280 16711680 = 0x00FF00000000FF00 := by
  refine ⟨join_split_of_lt, fun low high h1 h2 => ?_, by decide, by decide⟩
  have hfst := split_u64_fst (join_u32 low high)
  have hsnd := split_u64_snd (join_u32 low high)
  unfold join_u32 at hfst hsnd ⊢
  refine Prod.ext ?_ ?_
  · rw [hfst]; omega
  · rw [hsnd]; omega

/-- Witness for claim C8: joining the split halves of the starting pawn
mask restores it. -/
theorem claim8_witness :
    join_u32 (split_u64 0x00FF00000000FF00).1 (split_u64 0x00FF00000000FF00).2
      = 0x00FF00000000FF00 :=
  claim8_split_join.1 0x00FF00000000FF00 (by norm_num)

/-- Claim C4: the state encoder produces a fixed-length 21-slot vector
whose slots are, in order, the six role masks split into halves (slots
0-11), the two color masks split into halves (slots 12-15), the
side-to-move flag (0 for white, 1 for black) at slot 16, the halfmove
clock at slot 17, the en passant slot at slot 18 holding
`square_index + 1` with 0 meaning no target, and the two castling-rights
slots at 19-20. -/
theorem claim4_state_layout (p : ChessPos) :
    (encodeState p).length = 21 ∧
    (encodeState p).getD 0 0 = (split_u64 p.pawns).1 ∧
    (encodeState p).getD 1 0 = (split_u64 p.pawns).2 ∧
    (encodeState p).getD 2 0 = (split_u64 p.knights).1 ∧
    (encodeState p).getD 3 0 = (split_u64 p.knights).2 ∧
    (encodeState p).getD 4 0 = (split_u64 p.bishops).1 ∧
    (encodeState p).getD 5 0 = (split_u64 p.bishops).2 ∧
    (encodeState p).getD 6 0 = (split_u64 p.rooks).1 ∧
    (encodeState p).getD 7 0 = (split_u64 p.rooks).2 ∧
    (encodeState p).getD 8 0 = (split_u64 p.queens).1 ∧
    (encodeState p).getD 9 0 = (split_u64 p.queens).2 ∧
    (encodeState p).getD 10 0 = (split_u64 p.kings).1 ∧
    (encodeState p).getD 11 0 = (split_u64 p.kings).2 ∧
    (encodeState p).getD 12 0 = (split_u64 p.white).1 ∧
    (encodeState p).getD 13 0 = (split_u64 p.white).2 ∧
    (encodeState p).getD 14 0 = (split_u64 p.black).1 ∧
    (encodeState p).getD 15 0 = (split_u64 p.black).2 ∧
    (encodeState p).getD 16 0 = (if p.turn = .white then 0 else 1) ∧
    (encodeState p).getD 17 0 = p.halfmoves ∧
    (encodeState p).getD 18 0 =
      (match p.epSquare with
       | some sq => ChessSquare.toIndex sq + 1
       | none => 0) ∧
    (encodeState p).getD 19 0 = (split_u64 p.castlingRights).1 ∧
    (encodeState p).getD 20 0 = (split_u64 p.castlingRights).2 :=
  ⟨rfl, rfl, rfl, rfl, rfl, rfl, rfl, rfl, rfl, rfl, rfl, rfl, rfl, rfl,
   rfl, rfl, rfl, rfl, rfl, rfl, rfl, rfl⟩

/-- Claim C9: in the human turn of the interactive loop, whenever the
trimmed input line matches no legal move's string rendering, the loop
prints the legal-move list and re-reads with no state mutation: the
resulting position (and hence the side to move, which is a function of
the position) is exactly the one the turn started from. -/
theorem claim9_human_turn_no_match {P M : Type} (play : P → M → P)
    (render : M → List Char) (legal : List M) (pos : P) (input : List Char)
    (h : ∀ m ∈ legal, render m ≠ trimChars input) :
    humanTurn play render legal pos input
      = (pos, String.toList "Invalid move; valid moves are:"
          :: legal.map render) := by
  unfold humanTurn
  have hnone : findMove legal render input = none := by
    unfold findMove
    rw [List.find?_eq_none]
    intro m hm
    simpa using h m hm
  rw [hnone]

/-- Witness for claim C9: with one legal move rendered `e2e4` and the
input line ` zzz `, the turn leaves the position (here a counter whose
`play` would increment it) unchanged and prints the legal list. -/
theorem claim9_witness :
    humanTurn (fun (p : Nat) (_ : List Char) => p + 1) id
        [String.toList "e2e4"] 0 (String.toList " zzz ")
      = (0, [String.toList "Invalid move; valid moves are:",
             String.toList "e2e4"]) :=
  claim9_human_turn_no_match (fun p _ => p + 1) id [String.toList "e2e4"] 0
    (String.toList " zzz ") (by decide)

/-- Claim C10, counterexample: the claim that any vector whose from/to
square slot is 64 or more makes `u32_to_square` index out of bounds is
false — a Put vector ignores its from slot, so `[3, 0, 100, 0, 0, 0]`
(from slot 100 ≥ 64) decodes without a panic. -/
theorem claim10_counterexample :
    decodeAction ⟨3, 0, 100, 0, 0, 0⟩
      = .ok (.put .pawn ⟨0, by norm_num⟩) ∧ (64 : Nat) ≤ 100 :=
  ⟨rfl, by norm_num⟩

/-- Claim C10, amended: the action decoder is partial beyond its
discriminant check — a Normal (kind 0) or Put (kind 3) vector whose role
slot is 6 or more panics in `u32_to_role`; a from/to square slot of 64 or
more panics when the kind actually reads that slot (the from slot of
Normal, EnPassant and Castle and the to slot of EnPassant, Castle and Put
via the out-of-bounds `Square::ALL` index in `u32_to_square`, the to slot
of Normal via the failed `try_into().unwrap()`); slots a kind ignores,
such as a Put vector's from slot, are not validated at all. -/
theorem claim10_amended :
    (∀ v : ActionVec, v.a0 = 0 → 6 ≤ v.a1 →
      decodeAction v = .error .rolePanic) ∧
    (∀ v : ActionVec, v.a0 = 3 → 6 ≤ v.a1 →
      decodeAction v = .error .rolePanic) ∧
    (∀ v : ActionVec, v.a0 = 0 → v.a1 < 6 → 64 ≤ v.a2 →
      decodeAction v = .error .squarePanic) ∧
    (∀ v : ActionVec, v.a0 = 1 → 64 ≤ v.a2 →
      decodeAction v = .error .squarePanic) ∧
    (∀ v : ActionVec, v.a0 = 1 → v.a2 < 64 → 64 ≤ v.a4 →
      decodeAction v = .error .squarePanic) ∧
    (∀ v : ActionVec, v.a0 = 2 → 64 ≤ v.a2 →
      decodeAction v = .error .squarePanic) ∧
    (∀ v : ActionVec, v.a0 = 2 → v.a2 < 64 → 64 ≤ v.a4 →
      decodeAction v = .error .squarePanic) ∧
    (∀ v : ActionVec, v.a0 = 3 → v.a1 < 6 → 64 ≤ v.a4 →
      decodeAction v = .error .squarePanic) ∧
    (∀ v : ActionVec, v.a0 = 0 → v.a1 < 6 → v.a2 < 64 → v.a3 = 0 →
      64 ≤ v.a4 → decodeAction v = .error .unwrapPanic) ∧
    (∀ v : ActionVec, v.a0 = 3 → v.a1 < 6 → v.a4 < 64 →
      ∃ m, decodeAction v = .ok m) := by
  refine ⟨?_, ?_, ?_, ?_, ?_, ?_, ?_, ?_, ?_, ?_⟩ <;>
    rintro ⟨a0, a1, a2, a3, a4, a5⟩ rfl <;> dsimp only <;> intro h1
  · simp [decodeAction, u32_to_role_err a1 h1, except_bind_err]
  · simp [decodeAction, u32_to_role_err a1 h1, except_bind_err]
  · intro h2
    obtain ⟨r, hr⟩ := u32_to_role_ok a1 h1
    simp [decodeAction, hr, u32_to_square_err a2 h2, except_bind_ok,
      except_bind_err]
  · simp [decodeAction, u32_to_square_err a2 h1, except_bind_err]
  · intro h4
    simp [decodeAction, u32_to_square_ok a2 h1, u32_to_square_err a4 h4,
      except_bind_ok, except_bind_err, except_map_err]
  · simp [decodeAction, u32_to_square_err a2 h1, except_bind_err]
  · intro h4
    simp [decodeAction, u32_to_square_ok a2 h1, u32_to_square_err a4 h4,
      except_bind_ok, except_bind_err, except_map_err]
  · intro h4
    obtain ⟨r, hr⟩ := u32_to_role_ok a1 h1
    simp [decodeAction, hr, u32_to_square_err a4 h4, except_bind_ok,
      except_bind_err, except_map_err]
  · intro h2 h3 h4
    obtain ⟨r, hr⟩ := u32_to_role_ok a1 h1
    subst h3
    simp [decodeAction, hr, u32_to_square_ok a2 h2, decodeOptRole,
      square_try_into, dif_neg (by omega : ¬a4 < 64), except_bind_ok,
      except_bind_err]
  · intro h4
    obtain ⟨r, hr⟩ := u32_to_role_ok a1 h1
    exact ⟨.put r ⟨a4, h4⟩,
      by simp [decodeAction, hr, u32_to_square_ok a4 h4, except_bind_ok,
        except_map_ok]⟩

/-- Witness for claim C10's amended theorem: a Normal vector with role
slot 7 panics in `u32_to_role`, and an EnPassant vector with from slot 99
panics in `u32_to_square`. -/
theorem claim10_witness :
    decodeAction ⟨0, 7, 12, 0, 28, 0⟩ = .error .rolePanic ∧
    decodeAction ⟨1, 0, 99, 0, 28, 0⟩ = .error .squarePanic :=
  ⟨claim10_amended.1 ⟨0, 7, 12, 0, 28, 0⟩ rfl (by norm_num),
   (claim10_amended.2.2.2.1) ⟨1, 0, 99, 0, 28, 0⟩ rfl (by norm_num)⟩

/-- Claim C2: for every position that passes the structural and legality
checks the decoder performs (as every reachable position does) and whose
nine masks have both split halves below the `f32` exactness threshold
`2 ^ 24`, the state codec round-trips: decoding the encoded 21-slot
vector reconstructs the masks via `join` and rebuilds the position
exactly; the decoder fails with the invalid-position error on
structurally illegal layouts (see `decodeState`). -/
theorem claim2_state_roundtrip (p : ChessPos)
    (hok : structuralOk p = true) (hthr : belowThreshold p) :
    decodeState (encodeState p) = .ok p := by
  obtain ⟨pw, kn, bi, ro, qu, ki, wh, bl, tu, hm, ep, cr⟩ := p
  obtain ⟨b1, b2, b3, b4, b5, b6, b7, b8, b9, b10, b11, b12, b13, b14,
    b15, b16, b17, b18⟩ := hthr
  dsimp only at *
  have e1 := join_split_of_lt pw (mask_lt_of_high pw b2)
  have e2 := join_split_of_lt kn (mask_lt_of_high kn b4)
  have e3 := join_split_of_lt bi (mask_lt_of_high bi b6)
  have e4 := join_split_of_lt ro (mask_lt_of_high ro b8)
  have e5 := join_split_of_lt qu (mask_lt_of_high qu b10)
  have e6 := join_split_of_lt ki (mask_lt_of_high ki b12)
  have e7 := join_split_of_lt wh (mask_lt_of_high wh b14)
  have e8 := join_split_of_lt bl (mask_lt_of_high bl b16)
  have e9 := join_split_of_lt cr (mask_lt_of_high cr b18)
  rcases ep with _ | sq <;> cases tu <;>
    simp [encodeState, decodeState, e1, e2, e3, e4, e5, e6, e7, e8, e9,
      ChessSquare.toIndex, hok, Fin.is_lt, Nat.lt_irrefl] <;>
    exact Nat.lt_succ_iff.mp (Fin.is_lt sq)

/-- Witness for claim C2: the two-kings position round-trips through the
state codec. -/
theorem claim2_witness :
    structuralOk kingsOnlyPos = true ∧ belowThreshold kingsOnlyPos ∧
    decodeState (encodeState kingsOnlyPos) = .ok kingsOnlyPos :=
  ⟨by decide, by decide,
   claim2_state_roundtrip kingsOnlyPos (by decide) (by decide)⟩

end RurelChess
